import Mathlib

/-!
Verification of the maestro `HashDispatcher` (package `dispatcher`).

The dispatcher maps consumers to maestro instances with a consistent-hash
ring.  We embed its state and operations shallowly:

* the mapset `consumerSet` becomes a `Finset String`;
* the consistent-hash ring (`github.com/buraksezer/consistent`, an external
  library whose code is not part of this repository) is modelled by its
  observable interface: the current member list (`GetMembers`) and a locate
  family `locate : List String → String → String` giving, for each
  membership snapshot, the result of `LocateKey([]byte key).String()`;
* calls on the DAOs and the work queue become explicit inputs and outputs:
  a consumer listing is an `Except String (List String)` (the `.ID` fields
  are the only ones used), and the IDs passed to `workQueue.Add` during a
  reconciliation are returned as a list;
* `processNextResync` is embedded as a function from the item handed over
  by `workQueue.Get` and the outcome of `sourceClient.Resync` to the list
  of work-queue actions it performs and its boolean result;
* the goroutine structure of `Start` is embedded as the list of its own
  synchronous effects, in source order.
-/

namespace Dispatcher

/-- State of a `HashDispatcher`: its own `instanceID`, the mapset
`consumerSet`, and the membership of the consistent-hash ring
(`consistent.GetMembers`, as instance-ID strings). -/
structure HashDispatcher where
  instanceID : String
  consumerSet : Finset String
  members : List String
deriving DecidableEq

/-- `NewHashDispatcher`: the consumer set starts empty and the ring starts
with no members. -/
def NewHashDispatcher (instanceID : String) : HashDispatcher :=
  { instanceID := instanceID, consumerSet := ∅, members := [] }

/-- `Dispatch` returns whether the consumer ID is in the current instance's
consumer set (`d.consumerSet.Contains(consumerID)`). -/
def Dispatch (d : HashDispatcher) (consumerID : String) : Bool :=
  decide (consumerID ∈ d.consumerSet)

/-- `updateConsumerSet`, embedded as a function of the locate family, the
dispatcher state and the result of `d.consumerDao.All(ctx)`.  It returns
the new state, the error result, and the consumer IDs passed to
`d.workQueue.Add` during the loop, in order.

Mirrors the source: if the ring has no members it returns nil untouched;
a listing error is returned as `unable to list consumers: ...`; otherwise
one pass over the listing collects `toAddConsumers` (located to this
instance and not yet in the set; each is also enqueued) and
`toRemoveConsumers` (located elsewhere but currently in the set), then
`consumerSet.Append(toAdd...)` and `consumerSet.RemoveAll(toRemove...)`
are applied. -/
def updateConsumerSet (locate : List String → String → String)
    (d : HashDispatcher) (listing : Except String (List String)) :
    HashDispatcher × Except String Unit × List String :=
  if d.members.isEmpty then (d, .ok (), [])
  else
    match listing with
    | .error e => (d, .error ("unable to list consumers: " ++ e), [])
    | .ok consumers =>
      let toAddConsumers := consumers.filter fun c =>
        decide (locate d.members c = d.instanceID) && decide (c ∉ d.consumerSet)
      let toRemoveConsumers := consumers.filter fun c =>
        decide (locate d.members c ≠ d.instanceID) && decide (c ∈ d.consumerSet)
      ({ d with consumerSet :=
          (d.consumerSet ∪ toAddConsumers.toFinset) \ toRemoveConsumers.toFinset },
       .ok (), toAddConsumers)

/-- `OnInstanceUp`: if the instance is already a ring member the hashing
ring is not changed and nil is returned; otherwise the instance is added
to the ring and `updateConsumerSet` runs. -/
def OnInstanceUp (locate : List String → String → String)
    (d : HashDispatcher) (instanceID : String)
    (listing : Except String (List String)) :
    HashDispatcher × Except String Unit × List String :=
  if instanceID ∈ d.members then (d, .ok (), [])
  else
    updateConsumerSet locate { d with members := d.members ++ [instanceID] } listing

/-- `OnInstanceDown`: if the instance is not a ring member
(`deletedMember` stays true) the hash ring is not changed and nil is
returned; otherwise the instance is removed from the ring and
`updateConsumerSet` runs. -/
def OnInstanceDown (locate : List String → String → String)
    (d : HashDispatcher) (instanceID : String)
    (listing : Except String (List String)) :
    HashDispatcher × Except String Unit × List String :=
  if instanceID ∈ d.members then
    updateConsumerSet locate { d with members := d.members.erase instanceID } listing
  else (d, .ok (), [])

/-- An item handed out by the rate-limiting work queue.  The queue holds
`interface\x7b\x7d` values; the dispatcher only ever adds strings, but the
worker defends against non-string items (`consumerID.(string)` failing),
modelled by the `malformed` constructor. -/
inductive QueueItem where
  | str (s : String)
  | malformed (n : Nat)
deriving DecidableEq, Repr

/-- One observable action of a resync worker on the work queue or the
source client, in the order the source performs them. -/
inductive WorkerAction where
  | done (item : QueueItem)
  | forget (item : QueueItem)
  | addRateLimited (item : QueueItem)
  | resync (ids : List String)
deriving DecidableEq, Repr

/-- `processNextResync`, embedded as a function of the item returned by
`workQueue.Get` (`none` means `shutdown == true`) and of the outcome of
`sourceClient.Resync` (`some msg` is a failure).  Returns the worker
actions in execution order (`Done` is deferred, hence last) and the
boolean result. -/
def processNextResync (got : Option QueueItem)
    (resyncErr : List String → Option String) :
    List WorkerAction × Bool :=
  match got with
  | none => ([], false)
  | some item =>
    match item with
    | .malformed n =>
      ([.forget (.malformed n), .done (.malformed n)], true)
    | .str s =>
      match resyncErr [s] with
      | some _ =>
        ([.resync [s], .addRateLimited (.str s), .done (.str s)], true)
      | none =>
        ([.resync [s], .done (.str s)], true)

/-- A synchronous effect of `Start` or of the goroutines it spawns.
`go f(...)` statements are spawn effects: `Start` does not join the
spawned goroutines. -/
inductive StartEffect where
  | goStartStatusResyncWorkers
  | goPeriodicCheck
  | awaitContextDone
  | shutDownWorkQueue
  | spawnWorkerGoroutines
  | waitForWorkers
deriving DecidableEq, Repr

/-- The synchronous effects of `Start(ctx)`, in source order: spawn the
resync-worker goroutine, spawn the 5-second periodic `check` goroutine,
block on `<-ctx.Done()`, call `workQueue.ShutDown()`, return. -/
def startEffects : List StartEffect :=
  [.goStartStatusResyncWorkers, .goPeriodicCheck, .awaitContextDone, .shutDownWorkQueue]

/-- The synchronous effects of `startStatusResyncWorkers`: spawn the ten
worker goroutines (`wg.Add(10)` plus the `go func` loop) and block on
`wg.Wait()` until all of them exit.  This function runs inside a goroutine
spawned by `Start`. -/
def startStatusResyncWorkersEffects : List StartEffect :=
  [.spawnWorkerGoroutines, .waitForWorkers]

/-! ### Helper lemmas about `updateConsumerSet` -/

theorem updateConsumerSet_members (locate : List String → String → String)
    (d : HashDispatcher) (listing : Except String (List String)) :
    (updateConsumerSet locate d listing).1.members = d.members := by
  unfold updateConsumerSet
  split
  · rfl
  · cases listing <;> rfl

theorem updateConsumerSet_instanceID (locate : List String → String → String)
    (d : HashDispatcher) (listing : Except String (List String)) :
    (updateConsumerSet locate d listing).1.instanceID = d.instanceID := by
  unfold updateConsumerSet
  split
  · rfl
  · cases listing <;> rfl

theorem updateConsumerSet_ok (locate : List String → String → String)
    (d : HashDispatcher) (consumers : List String) :
    (updateConsumerSet locate d (.ok consumers)).2.1 = .ok () := by
  unfold updateConsumerSet
  split <;> rfl

theorem isEmpty_eq_false_of_ne_nil {l : List String} (h : l ≠ []) :
    l.isEmpty = false := by
  cases l with
  | nil => exact absurd rfl h
  | cons a t => rfl

/-- Membership in the consumer set after a successful reconciliation, for a
consumer that occurs in the listing: it is owned afterwards exactly when the
ring locates it to this instance. -/
theorem mem_updateConsumerSet_iff (locate : List String → String → String)
    (d : HashDispatcher) (consumers : List String) (c : String)
    (hm : d.members ≠ []) (hc : c ∈ consumers) :
    c ∈ (updateConsumerSet locate d (.ok consumers)).1.consumerSet ↔
      locate d.members c = d.instanceID := by
  have hne := isEmpty_eq_false_of_ne_nil hm
  simp only [updateConsumerSet, hne, Bool.false_eq_true, if_false,
    Finset.mem_sdiff, Finset.mem_union, List.mem_toFinset, List.mem_filter,
    Bool.and_eq_true, decide_eq_true_eq]
  by_cases hl : locate d.members c = d.instanceID <;>
    by_cases hset : c ∈ d.consumerSet <;>
      simp [hl, hset, hc]

/-- The consumer IDs enqueued on the work queue by a successful
reconciliation are exactly the listed consumers newly located to this
instance. -/
theorem mem_updateConsumerSet_enqueued_iff (locate : List String → String → String)
    (d : HashDispatcher) (consumers : List String) (c : String)
    (hm : d.members ≠ []) :
    c ∈ (updateConsumerSet locate d (.ok consumers)).2.2 ↔
      c ∈ consumers ∧ locate d.members c = d.instanceID ∧ c ∉ d.consumerSet := by
  have hne := isEmpty_eq_false_of_ne_nil hm
  simp only [updateConsumerSet, hne, Bool.false_eq_true, if_false,
    List.mem_filter, Bool.and_eq_true, decide_eq_true_eq]

/-- A locate family that agrees with every consistent-hash ring on
single-member rings: with one member, every key is located to it. -/
def locateHead : List String → String → String := fun ms _ => ms.headD ""

/-- A locate family that sends every key to instance `B`, regardless of
membership. -/
def locateToB : List String → String → String := fun _ _ => "B"

/-- C1: after `updateConsumerSet` returns nil with a non-empty ring and a
successful consumer listing, every listed consumer located to this instance
that was not yet owned is in the set, every listed consumer located
elsewhere that was owned is out of the set, and every other listed
consumer's membership is unchanged. -/
theorem updateConsumerSet_reconciles_listed_consumers
    (locate : List String → String → String) (d : HashDispatcher)
    (consumers : List String) (c : String)
    (hm : d.members ≠ []) (hc : c ∈ consumers) :
    (updateConsumerSet locate d (.ok consumers)).2.1 = .ok () ∧
    (locate d.members c = d.instanceID → c ∉ d.consumerSet →
      c ∈ (updateConsumerSet locate d (.ok consumers)).1.consumerSet) ∧
    (locate d.members c ≠ d.instanceID → c ∈ d.consumerSet →
      c ∉ (updateConsumerSet locate d (.ok consumers)).1.consumerSet) ∧
    (locate d.members c = d.instanceID → c ∈ d.consumerSet →
      c ∈ (updateConsumerSet locate d (.ok consumers)).1.consumerSet) ∧
    (locate d.members c ≠ d.instanceID → c ∉ d.consumerSet →
      c ∉ (updateConsumerSet locate d (.ok consumers)).1.consumerSet) := by
  have key := mem_updateConsumerSet_iff locate d consumers c hm hc
  refine ⟨updateConsumerSet_ok locate d consumers, ?_, ?_, ?_, ?_⟩
  · intro hl _
    exact key.mpr hl
  · intro hl _ habs
    exact hl (key.mp habs)
  · intro hl _
    exact key.mpr hl
  · intro hl _ habs
    exact hl (key.mp habs)

theorem updateConsumerSet_reconciles_listed_consumers_witness :
    ((["A"] : List String) ≠ [] ∧ "c1" ∈ ["c1"]) ∧
    ((updateConsumerSet locateHead ⟨"A", ∅, ["A"]⟩ (.ok ["c1"])).2.1 = .ok () ∧
     (locateHead ["A"] "c1" = "A" → "c1" ∉ (∅ : Finset String) →
       "c1" ∈ (updateConsumerSet locateHead ⟨"A", ∅, ["A"]⟩ (.ok ["c1"])).1.consumerSet) ∧
     (locateHead ["A"] "c1" ≠ "A" → "c1" ∈ (∅ : Finset String) →
       "c1" ∉ (updateConsumerSet locateHead ⟨"A", ∅, ["A"]⟩ (.ok ["c1"])).1.consumerSet) ∧
     (locateHead ["A"] "c1" = "A" → "c1" ∈ (∅ : Finset String) →
       "c1" ∈ (updateConsumerSet locateHead ⟨"A", ∅, ["A"]⟩ (.ok ["c1"])).1.consumerSet) ∧
     (locateHead ["A"] "c1" ≠ "A" → "c1" ∉ (∅ : Finset String) →
       "c1" ∉ (updateConsumerSet locateHead ⟨"A", ∅, ["A"]⟩ (.ok ["c1"])).1.consumerSet)) :=
  ⟨⟨by decide, by decide⟩,
   updateConsumerSet_reconciles_listed_consumers locateHead ⟨"A", ∅, ["A"]⟩ ["c1"] "c1"
     (by decide) (by decide)⟩

/-- C2: during a reconciliation, a consumer ID is passed to
`workQueue.Add` exactly when it is newly acquired — listed, located to this
instance, and not already in the consumer set; in particular a consumer
already in the set (so also one being removed) is never enqueued. -/
theorem updateConsumerSet_enqueues_iff_newly_acquired
    (locate : List String → String → String) (d : HashDispatcher)
    (consumers : List String) (c : String) (hm : d.members ≠ []) :
    (c ∈ (updateConsumerSet locate d (.ok consumers)).2.2 ↔
      c ∈ consumers ∧ locate d.members c = d.instanceID ∧ c ∉ d.consumerSet) ∧
    (c ∈ d.consumerSet → c ∉ (updateConsumerSet locate d (.ok consumers)).2.2) := by
  have key := mem_updateConsumerSet_enqueued_iff locate d consumers c hm
  refine ⟨key, fun hset henq => ?_⟩
  exact (key.mp henq).2.2 hset

theorem updateConsumerSet_enqueues_iff_newly_acquired_witness :
    ((["A"] : List String) ≠ []) ∧
    (("c1" ∈ (updateConsumerSet locateHead ⟨"A", ∅, ["A"]⟩ (.ok ["c1"])).2.2 ↔
       "c1" ∈ ["c1"] ∧ locateHead ["A"] "c1" = "A" ∧ "c1" ∉ (∅ : Finset String)) ∧
     ("c1" ∈ (∅ : Finset String) →
       "c1" ∉ (updateConsumerSet locateHead ⟨"A", ∅, ["A"]⟩ (.ok ["c1"])).2.2)) :=
  ⟨by decide,
   updateConsumerSet_enqueues_iff_newly_acquired locateHead ⟨"A", ∅, ["A"]⟩ ["c1"] "c1"
     (by decide)⟩

/-- C4 (counterexample): the ring-membership invariant fails for consumers
absent from the listing.  With ring member `B` locating everything to `B`,
instance `A` still owns `c1` from before, and `c1` is missing from the
listing: after reconciliation `c1` is still in the set although
`locate(c1) ≠ A`. -/
theorem mem_consumerSet_not_iff_located_for_unlisted :
    ¬ ("c1" ∈ (updateConsumerSet locateToB ⟨"A", {"c1"}, ["B"]⟩ (.ok [])).1.consumerSet ↔
        locateToB ["B"] "c1" = "A") := by
  decide

/-- C4 (amended): for every ConsumerID that occurs in the latest consumer
listing, after a reconciliation with a non-empty ring, the consumer is in
this replica's consumer set iff the ring locates it to this replica's
instanceID.  (Consumers absent from the listing keep their previous
membership.) -/
theorem mem_consumerSet_iff_located_for_listed
    (locate : List String → String → String) (d : HashDispatcher)
    (consumers : List String) (c : String)
    (hm : d.members ≠ []) (hc : c ∈ consumers) :
    c ∈ (updateConsumerSet locate d (.ok consumers)).1.consumerSet ↔
      locate d.members c = d.instanceID :=
  mem_updateConsumerSet_iff locate d consumers c hm hc

theorem mem_consumerSet_iff_located_for_listed_witness :
    ((["A"] : List String) ≠ [] ∧ "c1" ∈ ["c1"]) ∧
    ("c1" ∈ (updateConsumerSet locateHead ⟨"A", ∅, ["A"]⟩ (.ok ["c1"])).1.consumerSet ↔
      locateHead ["A"] "c1" = "A") :=
  ⟨⟨by decide, by decide⟩,
   mem_consumerSet_iff_located_for_listed locateHead ⟨"A", ∅, ["A"]⟩ ["c1"] "c1"
     (by decide) (by decide)⟩

/-- C6: if listing consumers fails during a reconciliation with a
non-empty ring, `updateConsumerSet` returns the wrapped error and the
state is completely unchanged, with no consumer ID enqueued on the work
queue. -/
theorem updateConsumerSet_listing_error_unchanged
    (locate : List String → String → String) (iid : String)
    (set : Finset String) (m : String) (ms : List String) (e : String) :
    updateConsumerSet locate ⟨iid, set, m :: ms⟩ (.error e) =
      (⟨iid, set, m :: ms⟩, .error ("unable to list consumers: " ++ e), []) :=
  rfl

/-- The state reached by: fresh dispatcher with `instanceID = "A"`;
`OnInstanceUp("A")` reconciling against listing `[c1]` (the instance
acquires `c1`); then `OnInstanceDown("A")`, which removes the last ring
member.  `locateHead` agrees with every consistent-hash ring along this
trace, since the ring only ever holds the single member `A`. -/
def lastMemberDownState : HashDispatcher :=
  (OnInstanceDown locateHead
    (OnInstanceUp locateHead (NewHashDispatcher "A") "A" (.ok ["c1"])).1
    "A" (.ok ["c1"])).1

/-- C3 (counterexample): `Dispatch` checks only the consumer set, which the
empty-ring early return of `updateConsumerSet` leaves untouched; so after
the last ring member goes down, the ring is empty yet `Dispatch("c1")`
still returns true. -/
theorem dispatch_true_with_empty_ring :
    lastMemberDownState.members = [] ∧ Dispatch lastMemberDownState "c1" = true := by
  decide

/-- C3 (amended): while the hashing ring has no members a reconciliation
returns nil, leaving the consumer set unchanged and enqueuing nothing, and
on a fresh dispatcher (whose consumer set is empty) `Dispatch` returns
false for every consumer ID.  `Dispatch` consults only the consumer set,
so ring emptiness alone does not force it false once consumers were
acquired earlier. -/
theorem emptyRing_reconcile_noop_and_fresh_dispatch_false
    (locate : List String → String → String) (iid : String) (set : Finset String)
    (listing : Except String (List String)) (c : String) :
    updateConsumerSet locate ⟨iid, set, []⟩ listing = (⟨iid, set, []⟩, .ok (), []) ∧
    Dispatch (NewHashDispatcher iid) c = false := by
  refine ⟨rfl, ?_⟩
  simp [Dispatch, NewHashDispatcher]

/-! ### Membership signals -/

theorem OnInstanceUp_noop_of_mem (locate : List String → String → String)
    (d : HashDispatcher) (r : String) (listing : Except String (List String))
    (h : r ∈ d.members) :
    OnInstanceUp locate d r listing = (d, .ok (), []) := by
  simp [OnInstanceUp, h]

theorem OnInstanceDown_noop_of_not_mem (locate : List String → String → String)
    (d : HashDispatcher) (r : String) (listing : Except String (List String))
    (h : r ∉ d.members) :
    OnInstanceDown locate d r listing = (d, .ok (), []) := by
  simp [OnInstanceDown, h]

theorem OnInstanceUp_self_mem (locate : List String → String → String)
    (d : HashDispatcher) (r : String) (listing : Except String (List String)) :
    r ∈ (OnInstanceUp locate d r listing).1.members := by
  by_cases h : r ∈ d.members
  · simp [OnInstanceUp, h]
  · simp [OnInstanceUp, h, updateConsumerSet_members]

theorem OnInstanceDown_self_not_mem (locate : List String → String → String)
    (d : HashDispatcher) (r : String) (listing : Except String (List String))
    (hd : d.members.Nodup) :
    r ∉ (OnInstanceDown locate d r listing).1.members := by
  by_cases h : r ∈ d.members
  · simp only [OnInstanceDown, h, if_true, updateConsumerSet_members]
    exact fun hmem => ((List.Nodup.mem_erase_iff hd).mp hmem).1 rfl
  · simp [OnInstanceDown, h]

/-- C7: `OnInstanceUp(r)` with `r` already a ring member is a no-op
returning nil, `OnInstanceDown(r)` with `r` not a member is a no-op
returning nil, and consequently repeating either signal has the same
effect as calling it once (the second call changes nothing, returns nil
and enqueues nothing).  `d.members.Nodup` reflects that the ring never
holds duplicate members (`Add` is guarded by a membership check). -/
theorem onInstance_signals_idempotent (locate : List String → String → String)
    (d : HashDispatcher) (r : String) (hd : d.members.Nodup) :
    (r ∈ d.members → ∀ listing, OnInstanceUp locate d r listing = (d, .ok (), [])) ∧
    (r ∉ d.members → ∀ listing, OnInstanceDown locate d r listing = (d, .ok (), [])) ∧
    (∀ l1 l2, OnInstanceUp locate (OnInstanceUp locate d r l1).1 r l2 =
      ((OnInstanceUp locate d r l1).1, .ok (), [])) ∧
    (∀ l1 l2, OnInstanceDown locate (OnInstanceDown locate d r l1).1 r l2 =
      ((OnInstanceDown locate d r l1).1, .ok (), [])) := by
  refine ⟨fun h listing => OnInstanceUp_noop_of_mem locate d r listing h,
    fun h listing => OnInstanceDown_noop_of_not_mem locate d r listing h,
    fun l1 l2 => OnInstanceUp_noop_of_mem locate _ r l2 (OnInstanceUp_self_mem locate d r l1),
    fun l1 l2 => OnInstanceDown_noop_of_not_mem locate _ r l2
      (OnInstanceDown_self_not_mem locate d r l1 hd)⟩

theorem onInstance_signals_idempotent_witness :
    (["B"] : List String).Nodup ∧
    (("B" ∈ (["B"] : List String) → ∀ listing,
        OnInstanceUp locateHead ⟨"A", ∅, ["B"]⟩ "B" listing = (⟨"A", ∅, ["B"]⟩, .ok (), [])) ∧
     ("B" ∉ (["B"] : List String) → ∀ listing,
        OnInstanceDown locateHead ⟨"A", ∅, ["B"]⟩ "B" listing = (⟨"A", ∅, ["B"]⟩, .ok (), [])) ∧
     (∀ l1 l2, OnInstanceUp locateHead (OnInstanceUp locateHead ⟨"A", ∅, ["B"]⟩ "B" l1).1 "B" l2 =
        ((OnInstanceUp locateHead ⟨"A", ∅, ["B"]⟩ "B" l1).1, .ok (), [])) ∧
     (∀ l1 l2, OnInstanceDown locateHead (OnInstanceDown locateHead ⟨"A", ∅, ["B"]⟩ "B" l1).1 "B" l2 =
        ((OnInstanceDown locateHead ⟨"A", ∅, ["B"]⟩ "B" l1).1, .ok (), []))) :=
  ⟨by decide, onInstance_signals_idempotent locateHead ⟨"A", ∅, ["B"]⟩ "B" (by decide)⟩

/-! ### Start and the resync workers -/

/-- C5 (counterexample): `Start`'s own effect sequence contains no
wait-for-workers step: after `workQueue.ShutDown()` it returns at once.
The `wg.Wait()` happens inside the `startStatusResyncWorkers` goroutine,
which `Start` spawns with `go` and never joins. -/
theorem start_returns_without_waiting_for_workers :
    StartEffect.waitForWorkers ∉ startEffects := by
  decide

/-- C5 (amended): `Start(ctx)` blocks on `<-ctx.Done()` and only then
shuts down the resync work queue, which is its final action before
returning; it spawns the goroutine that runs (and waits for) the resync
workers, but does not itself wait for the workers to exit. -/
theorem start_blocks_then_shuts_down_queue :
    startEffects.indexOf .awaitContextDone < startEffects.indexOf .shutDownWorkQueue ∧
    startEffects.getLast? = some .shutDownWorkQueue ∧
    StartEffect.goStartStatusResyncWorkers ∈ startEffects ∧
    StartEffect.waitForWorkers ∈ startStatusResyncWorkersEffects := by
  decide

/-- C8: when `Resync` fails for a string consumer ID, the worker re-adds
the ID with `AddRateLimited`, marks it `Done`, and returns true to keep
processing; it never calls `Forget` on it, and the failure path carries no
retry counter, so there is no per-item cap on retries. -/
theorem processNextResync_requeues_on_failure (s e : String)
    (resyncErr : List String → Option String) (hfail : resyncErr [s] = some e) :
    processNextResync (some (.str s)) resyncErr =
      ([.resync [s], .addRateLimited (.str s), .done (.str s)], true) ∧
    WorkerAction.forget (.str s) ∉ (processNextResync (some (.str s)) resyncErr).1 := by
  constructor
  · simp [processNextResync, hfail]
  · simp [processNextResync, hfail]

theorem processNextResync_requeues_on_failure_witness :
    ((fun _ => some "boom" : List String → Option String) ["c1"] = some "boom") ∧
    (processNextResync (some (.str "c1")) (fun _ => some "boom") =
      ([.resync ["c1"], .addRateLimited (.str "c1"), .done (.str "c1")], true) ∧
     WorkerAction.forget (.str "c1") ∉
       (processNextResync (some (.str "c1")) (fun _ => some "boom")).1) :=
  ⟨rfl, processNextResync_requeues_on_failure "c1" "boom" (fun _ => some "boom") rfl⟩

/-- C9: a non-string work-queue item is forgotten and skipped: the worker
calls `Forget` and the deferred `Done`, never invokes `Resync`, never
re-queues it with `AddRateLimited`, and returns true to continue with the
next item. -/
theorem processNextResync_forgets_malformed (n : Nat)
    (resyncErr : List String → Option String) :
    processNextResync (some (.malformed n)) resyncErr =
      ([.forget (.malformed n), .done (.malformed n)], true) ∧
    (∀ ids, WorkerAction.resync ids ∉ (processNextResync (some (.malformed n)) resyncErr).1) ∧
    (∀ i, WorkerAction.addRateLimited i ∉ (processNextResync (some (.malformed n)) resyncErr).1) := by
  refine ⟨rfl, ?_, ?_⟩ <;> intro x <;> simp [processNextResync]

/-- C10: every item handed out by `workQueue.Get` with `shutdown == false`
is marked `Done` exactly once before `processNextResync` returns, on every
path — malformed item, `Resync` failure, and `Resync` success alike. -/
theorem processNextResync_done_exactly_once (item : QueueItem)
    (resyncErr : List String → Option String) :
    ((processNextResync (some item) resyncErr).1.count (.done item)) = 1 := by
  cases item with
  | str s =>
    cases h : resyncErr [s] <;>
      simp [processNextResync, h, List.count_cons, List.count_nil]
  | malformed n =>
    simp [processNextResync, List.count_cons, List.count_nil]

end Dispatcher
